import Mathlib

/-!
Shallow embedding of the ISO-Toolkit download/verify core
(`src/rust/src/lib.rs`) and proofs about its specified behaviour.

The Rust library exposes five operations: `get_file_info`, `download_file`,
`verify_checksum`, `format_bytes` and `format_duration`.  Network traffic and
the filesystem are modelled explicitly: an HTTP response is a status, an
optional content length, headers and a chunked body stream; the single output
file is a byte list; fallible operations return `Except`.
-/

set_option maxRecDepth 100000

deriving instance DecidableEq for Except

namespace ISOToolkit

/-- Lowercase one ASCII letter, leaving every other character unchanged; this is
how the Rust `to_lowercase` and `eq_ignore_ascii_case` functions act on ASCII,
which covers every algorithm name and header value the library compares. -/
def asciiLowerChar (c : Char) : Char :=
  if 65 ≤ c.toNat ∧ c.toNat ≤ 90 then Char.ofNat (c.toNat + 32) else c

/-- Model of Rust `str::to_lowercase` on ASCII input. -/
def asciiLower (s : String) : String := String.mk (s.data.map asciiLowerChar)

/-- Model of Rust `str::eq_ignore_ascii_case`. -/
def eqIgnoreAsciiCase (a b : String) : Bool := asciiLower a == asciiLower b

/-- Helper for `chunksOf`: `acc` holds the current chunk reversed and `k` is its
remaining capacity minus one. -/
def chunksAux (n : Nat) : List α → List α → Nat → List (List α)
  | [], acc, _ => [acc.reverse]
  | x :: xs, acc, 0 => acc.reverse :: chunksAux n xs [x] (n - 1)
  | x :: xs, acc, k + 1 => chunksAux n xs (x :: acc) k

/-- Split a list into consecutive chunks of `n` elements (the last chunk may be
shorter).  This models every fixed-size-buffer loop in the library: the 8192
byte read buffer of `verify_checksum` and the word decomposition of hash
blocks.  All use sites have `0 < n`. -/
def chunksOf (n : Nat) : List α → List (List α)
  | [] => []
  | x :: xs => chunksAux n xs [x] (n - 1)

/-- Lowercase hexadecimal digit of a value below 16, as Rust `{:x}` renders it. -/
def hexDigit (n : Nat) : Char :=
  if n < 10 then Char.ofNat (48 + n) else Char.ofNat (87 + n)

/-- Render a byte list in lowercase hex, two digits per byte: the string built
by `format!("\x7b:x\x7d", digest)` on a digest. -/
def hexOfBytes (bs : List Nat) : String :=
  String.mk (List.flatten (bs.map (fun b => [hexDigit (b / 16), hexDigit (b % 16)])))

/-! ### 32-bit word arithmetic (`u32` operations used by the digest cores) -/

/-- Truncation to a 32-bit word. -/
def w32 (n : Nat) : Nat := n % 4294967296

/-- 32-bit right rotation (argument below 2^32, rotation amount between 1 and 31). -/
def rotr32 (x n : Nat) : Nat :=
  w32 (Nat.lor (Nat.shiftRight x n) (Nat.shiftLeft x (32 - n)))

/-- 32-bit left rotation. -/
def rotl32 (x n : Nat) : Nat :=
  w32 (Nat.lor (Nat.shiftLeft x n) (Nat.shiftRight x (32 - n)))

/-- Bitwise complement of a 32-bit word. -/
def not32 (x : Nat) : Nat := Nat.xor x 4294967295

/-- Big-endian byte decomposition of `n` into `k` bytes. -/
def beBytes (k n : Nat) : List Nat :=
  (List.range k).map (fun i => Nat.shiftRight n (8 * (k - 1 - i)) % 256)

/-- Little-endian byte decomposition of `n` into `k` bytes. -/
def leBytes (k n : Nat) : List Nat :=
  (List.range k).map (fun i => Nat.shiftRight n (8 * i) % 256)

/-- Big-endian word value of a byte list. -/
def beWord (bs : List Nat) : Nat := bs.foldl (fun acc b => 256 * acc + b) 0

/-- Little-endian word value of a byte list. -/
def leWord (bs : List Nat) : Nat := bs.foldr (fun b acc => b + 256 * acc) 0

/-! ### SHA-256 (the digest the `sha2` crate computes for `verify_checksum`) -/

/-- The eight-word working state of the digest cores. -/
structure Hash8 where
  a : Nat
  b : Nat
  c : Nat
  d : Nat
  e : Nat
  f : Nat
  g : Nat
  h : Nat
deriving DecidableEq, Repr

/-- SHA-256 choice function. -/
def ch (x y z : Nat) : Nat := Nat.xor (Nat.land x y) (Nat.land (not32 x) z)

/-- SHA-256 majority function. -/
def maj (x y z : Nat) : Nat :=
  Nat.xor (Nat.xor (Nat.land x y) (Nat.land x z)) (Nat.land y z)

/-- SHA-256 big sigma 0. -/
def bigSigma0 (x : Nat) : Nat :=
  Nat.xor (Nat.xor (rotr32 x 2) (rotr32 x 13)) (rotr32 x 22)

/-- SHA-256 big sigma 1. -/
def bigSigma1 (x : Nat) : Nat :=
  Nat.xor (Nat.xor (rotr32 x 6) (rotr32 x 11)) (rotr32 x 25)

/-- SHA-256 small sigma 0. -/
def smallSigma0 (x : Nat) : Nat :=
  Nat.xor (Nat.xor (rotr32 x 7) (rotr32 x 18)) (Nat.shiftRight x 3)

/-- SHA-256 small sigma 1. -/
def smallSigma1 (x : Nat) : Nat :=
  Nat.xor (Nat.xor (rotr32 x 17) (rotr32 x 19)) (Nat.shiftRight x 10)

/-- SHA-256 round constants. -/
def sha256K : List Nat :=
  [1116352408, 1899447441, 3049323471, 3921009573, 961987163, 1508970993,
   2453635748, 2870763221, 3624381080, 310598401, 607225278, 1426881987,
   1925078388, 2162078206, 2614888103, 3248222580, 3835390401, 4022224774,
   264347078, 604807628, 770255983, 1249150122, 1555081692, 1996064986,
   2554220882, 2821834349, 2952996808, 3210313671, 3336571891, 3584528711,
   113926993, 338241895, 666307205, 773529912, 1294757372, 1396182291,
   1695183700, 1986661051, 2177026350, 2456956037, 2730485921, 2820302411,
   3259730800, 3345764771, 3516065817, 3600352804, 4094571909, 275423344,
   430227734, 506948616, 659060556, 883997877, 958139571, 1322822218,
   1537002063, 1747873779, 1955562222, 2024104815, 2227730452, 2361852424,
   2428436474, 2756734187, 3204031479, 3329325298]

/-- Message-schedule extension: append `k` further words, each computed from
the words 2, 7, 15 and 16 positions back. -/
def sha256Extend : Nat → List Nat → List Nat
  | 0, ws => ws
  | k + 1, ws =>
    let n := ws.length
    let w := w32 (smallSigma1 (ws.getD (n - 2) 0) + ws.getD (n - 7) 0 +
      smallSigma0 (ws.getD (n - 15) 0) + ws.getD (n - 16) 0)
    sha256Extend k (ws ++ [w])

/-- One SHA-256 compression round for a round constant and schedule word. -/
def sha256Round (st : Hash8) (kw : Nat × Nat) : Hash8 :=
  let t1 := w32 (st.h + bigSigma1 st.e + ch st.e st.f st.g + kw.1 + kw.2)
  let t2 := w32 (bigSigma0 st.a + maj st.a st.b st.c)
  ⟨w32 (t1 + t2), st.a, st.b, st.c, w32 (st.d + t1), st.e, st.f, st.g⟩

/-- Process one 64-byte block. -/
def sha256Block (st : Hash8) (block : List Nat) : Hash8 :=
  let ws := sha256Extend 48 ((chunksOf 4 block).map beWord)
  let e := (sha256K.zip ws).foldl sha256Round st
  ⟨w32 (st.a + e.a), w32 (st.b + e.b), w32 (st.c + e.c), w32 (st.d + e.d),
   w32 (st.e + e.e), w32 (st.f + e.f), w32 (st.g + e.g), w32 (st.h + e.h)⟩

/-- SHA-256 initial state. -/
def sha256InitSt : Hash8 :=
  ⟨1779033703, 3144134277, 1013904242, 2773480762,
   1359893119, 2600822924, 528734635, 1541459225⟩

/-- Merkle–Damgård padding: a 0x80 byte, zeros, and the 8-byte big-endian bit
length, bringing the length to a multiple of 64. -/
def sha256Pad (msg : List Nat) : List Nat :=
  msg ++ 128 :: (List.replicate ((119 - msg.length % 64) % 64) 0 ++ beBytes 8 (8 * msg.length))

/-- SHA-256 digest (32 bytes) of a byte-list message. -/
def sha256Bytes (msg : List Nat) : List Nat :=
  let st := (chunksOf 64 (sha256Pad msg)).foldl sha256Block sha256InitSt
  List.flatten ([st.a, st.b, st.c, st.d, st.e, st.f, st.g, st.h].map (beBytes 4))

/-- Lowercase-hex SHA-256 digest of a message, as `format!("\x7b:x\x7d", hasher.finalize())`
renders it. -/
def sha256Hex (msg : List Nat) : String := hexOfBytes (sha256Bytes msg)

/-! ### MD5 (the digest the `md5` crate computes for `verify_checksum`) -/

/-- The four-word working state of MD5. -/
structure Md5St where
  a : Nat
  b : Nat
  c : Nat
  d : Nat
deriving DecidableEq, Repr

/-- MD5 sine-derived round constants. -/
def md5T : List Nat :=
  [3614090360, 3905402710, 606105819, 3250441966, 4118548399, 1200080426,
   2821735955, 4249261313, 1770035416, 2336552879, 4294925233, 2304563134,
   1804603682, 4254626195, 2792965006, 1236535329, 4129170786, 3225465664,
   643717713, 3921069994, 3593408605, 38016083, 3634488961, 3889429448,
   568446438, 3275163606, 4107603335, 1163531501, 2850285829, 4243563512,
   1735328473, 2368359562, 4294588738, 2272392833, 1839030562, 4259657740,
   2763975236, 1272893353, 4139469664, 3200236656, 681279174, 3936430074,
   3572445317, 76029189, 3654602809, 3873151461, 530742520, 3299628645,
   4096336452, 1126891415, 2878612391, 4237533241, 1700485571, 2399980690,
   4293915773, 2240044497, 1873313359, 4264355552, 2734768916, 1309151649,
   4149444226, 3174756917, 718787259, 3951481745]

/-- MD5 per-round left-rotation amounts. -/
def md5S : List Nat :=
  [7, 12, 17, 22, 7, 12, 17, 22, 7, 12, 17, 22, 7, 12, 17, 22,
   5, 9, 14, 20, 5, 9, 14, 20, 5, 9, 14, 20, 5, 9, 14, 20,
   4, 11, 16, 23, 4, 11, 16, 23, 4, 11, 16, 23, 4, 11, 16, 23,
   6, 10, 15, 21, 6, 10, 15, 21, 6, 10, 15, 21, 6, 10, 15, 21]

/-- MD5 round function, selected by the round index. -/
def md5F (b c d i : Nat) : Nat :=
  if i < 16 then Nat.lor (Nat.land b c) (Nat.land (not32 b) d)
  else if i < 32 then Nat.lor (Nat.land d b) (Nat.land (not32 d) c)
  else if i < 48 then Nat.xor (Nat.xor b c) d
  else Nat.xor c (Nat.lor b (not32 d))

/-- MD5 message-word index for the round index. -/
def md5G (i : Nat) : Nat :=
  if i < 16 then i
  else if i < 32 then (5 * i + 1) % 16
  else if i < 48 then (3 * i + 5) % 16
  else (7 * i) % 16

/-- One MD5 round on the 16-word message block `m`. -/
def md5Step (m : List Nat) (st : Md5St) (i : Nat) : Md5St :=
  let f := w32 (md5F st.b st.c st.d i + st.a + md5T.getD i 0 + m.getD (md5G i) 0)
  ⟨st.d, w32 (st.b + rotl32 f (md5S.getD i 0)), st.b, st.c⟩

/-- Process one 64-byte block. -/
def md5Block (st : Md5St) (block : List Nat) : Md5St :=
  let m := (chunksOf 4 block).map leWord
  let e := (List.range 64).foldl (md5Step m) st
  ⟨w32 (st.a + e.a), w32 (st.b + e.b), w32 (st.c + e.c), w32 (st.d + e.d)⟩

/-- MD5 initial state. -/
def md5InitSt : Md5St := ⟨1732584193, 4023233417, 2562383102, 271733878⟩

/-- MD5 padding: like SHA-256 but with a little-endian length field. -/
def md5Pad (msg : List Nat) : List Nat :=
  msg ++ 128 :: (List.replicate ((119 - msg.length % 64) % 64) 0 ++ leBytes 8 (8 * msg.length))

/-- MD5 digest (16 bytes) of a byte-list message. -/
def md5Bytes (msg : List Nat) : List Nat :=
  let st := (chunksOf 64 (md5Pad msg)).foldl md5Block md5InitSt
  List.flatten ([st.a, st.b, st.c, st.d].map (leBytes 4))

/-- Lowercase-hex MD5 digest of a message. -/
def md5Hex (msg : List Nat) : String := hexOfBytes (md5Bytes msg)

/-! ### Error kinds

Hard failures of the library functions: `netFail` models a propagated
`reqwest::Error` (NetworkError), `ioFail` a propagated `std::io::Error`
(IoError) and `configErr` the `PyValueError` raised by `verify_checksum` for an
unsupported algorithm name (ConfigurationError).  Soft HTTP failures are *not*
errors: they are `DownloadResult` values. -/
inductive HardErr where
  | netFail
  | ioFail
  | configErr
deriving DecidableEq, Repr

/-! ### `verify_checksum`

The file at `file_path` is modelled as `Option (List Nat)`: `none` when
`File::open` fails, `some content` otherwise.  The Rust read loop feeds the
file to the hasher through an 8192-byte buffer; incremental `update` calls
hash the concatenation of the chunks, so the model digests
`List.flatten (chunksOf 8192 content)`. -/
def verify_checksum (file : Option (List Nat)) (expected : String) (algorithm : String) :
    Except HardErr Bool :=
  if asciiLower algorithm = "sha256" then
    match file with
    | none => .error .ioFail
    | some content =>
      .ok (eqIgnoreAsciiCase (hexOfBytes (sha256Bytes (List.flatten (chunksOf 8192 content)))) expected)
  else if asciiLower algorithm = "md5" then
    match file with
    | none => .error .ioFail
    | some content =>
      .ok (eqIgnoreAsciiCase (hexOfBytes (md5Bytes (List.flatten (chunksOf 8192 content)))) expected)
  else .error .configErr

/-! ### `get_file_info` -/

/-- Response to the HEAD request: status, declared content length, and the two
headers the code reads.  A header whose value is not readable text
(`to_str()` fails) behaves exactly like an absent header in the code, so both
are modelled as `none`. -/
structure HeadResponse where
  status : Nat
  contentLength : Option Nat
  acceptRanges : Option String
  contentType : Option String
deriving DecidableEq, Repr

/-- The `FileInfo` pyclass. -/
structure FileInfo where
  size : Nat
  supports_range : Bool
  content_type : String
deriving DecidableEq, Repr

/-- Model of `get_file_info`: the argument is the transport outcome of
`client.head(url).send()` (`.error` = request failed / timed out). -/
def get_file_info (response : Except Unit HeadResponse) : Except HardErr FileInfo :=
  match response with
  | .error _ => .error .netFail
  | .ok r =>
    .ok { size := r.contentLength.getD 0,
          supports_range := (r.acceptRanges.map (fun v => eqIgnoreAsciiCase v "bytes")).getD false,
          content_type := r.contentType.getD "application/octet-stream" }

/-! ### `download_file` -/

/-- The `DownloadResult` pyclass. -/
structure DownloadResult where
  success : Bool
  bytes_downloaded : Nat
  error_message : Option String
deriving DecidableEq, Repr

/-- Response to the GET request: status, declared content length, and the body
stream; each stream item is either a received chunk of bytes or a mid-body
transport error (the `chunk_result?` case). -/
structure GetResponse where
  status : Nat
  contentLength : Option Nat
  body : List (Except Unit (List Nat))
deriving DecidableEq, Repr

/-- reqwest `StatusCode::is_success()`: 2xx statuses. -/
def statusIsSuccess (s : Nat) : Bool := decide (200 ≤ s) && decide (s < 300)

/-- Step 1 of `download_file`: `start_pos` is the on-disk length of the output
path when resume is requested and the path exists, otherwise 0. -/
def startOffset (resume : Bool) (existing : Option (List Nat)) : Nat :=
  if resume then (existing.map List.length).getD 0 else 0

/-- Step 2: the `Range` header attached to the GET request, present exactly
when `start_pos > 0`. -/
def rangeHeader (start_pos : Nat) : Option String :=
  if 0 < start_pos then some ("bytes=" ++ Nat.repr start_pos ++ "-") else none

/-- How the output file is opened in step 5. -/
inductive OpenMode where
  | append
  | truncate
deriving DecidableEq, Repr

/-- Step 5: `OpenOptions::new().append(true)` when `start_pos > 0`, else
`File::create` (create or truncate). -/
def openMode (start_pos : Nat) : OpenMode :=
  if 0 < start_pos then .append else .truncate

/-- Step 4: `response.content_length().unwrap_or(0) + start_pos`. -/
def totalSize (contentLength : Option Nat) (start_pos : Nat) : Nat :=
  contentLength.getD 0 + start_pos

/-- Environment of one `download_file` call: the pre-existing content of the
output path (`none` when the path does not exist), the network (the GET
response as a function of the attached `Range` header; `.error` = the request
could not be sent), and the local I/O fault model (whether the file open and
each numbered chunk write succeed). -/
structure DownloadEnv where
  existing : Option (List Nat)
  send : Option String → Except Unit GetResponse
  openOk : Bool
  writeOk : Nat → Bool

/-- The `while let Some(chunk_result) = stream.next().await` loop of
`download_file`.  `i` numbers the chunks for the write-fault model,
`downloaded` is the running total and `content` the bytes of the open output
file.  A callback that fails makes the loop `break`; the result built after
the loop is returned directly from the `break` arm since the loop no longer
changes state.  Returns the outcome together with the final file content. -/
def dlLoop (cb : Option (Nat → Nat → Bool)) (total : Nat) (writeOk : Nat → Bool) :
    List (Except Unit (List Nat)) → Nat → Nat → List Nat →
    Except HardErr DownloadResult × List Nat
  | [], _, downloaded, content =>
    (.ok { success := true, bytes_downloaded := downloaded, error_message := none }, content)
  | .error _ :: _, _, _, content => (.error .netFail, content)
  | .ok chunk :: rest, i, downloaded, content =>
    if writeOk i then
      let content := content ++ chunk
      let downloaded := downloaded + chunk.length
      match cb with
      | some f =>
        if f downloaded total then dlLoop cb total writeOk rest (i + 1) downloaded content
        else (.ok { success := true, bytes_downloaded := downloaded, error_message := none }, content)
      | none => dlLoop cb total writeOk rest (i + 1) downloaded content
    else (.error .ioFail, content)

/-- Model of `download_file`: returns the `PyResult<DownloadResult>` together
with the final on-disk content of the output path (`none` when the path still
does not exist).  The progress callback is a function of
`(downloaded, total_size)` returning `false` when the Python call fails,
i.e. when the user cancels. -/
def download_file (resume : Bool) (cb : Option (Nat → Nat → Bool)) (env : DownloadEnv) :
    Except HardErr DownloadResult × Option (List Nat) :=
  let start_pos := startOffset resume env.existing
  match env.send (rangeHeader start_pos) with
  | .error _ => (.error .netFail, env.existing)
  | .ok response =>
    if !statusIsSuccess response.status && response.status != 206 then
      (.ok { success := false, bytes_downloaded := 0,
             error_message := some ("HTTP error: " ++ Nat.repr response.status) }, env.existing)
    else
      let total := totalSize response.contentLength start_pos
      if env.openOk then
        let initial := match openMode start_pos with
          | .append => env.existing.getD []
          | .truncate => []
        let r := dlLoop cb total env.writeOk response.body 0 start_pos initial
        (r.1, some r.2)
      else (.error .ioFail, env.existing)

/-! ### `format_bytes` and `format_duration` -/

/-- Rounding of `n` to a multiple of `2 ^ e`, ties to even: the mantissa
rounding performed by the `u64` to `f64` cast (`bytes as f64`).  Every later
operation of `format_bytes` is exact on the resulting value: dividing by 1024
only shifts the binary exponent, and Rust fixed-precision formatting renders
the exact binary value correctly rounded, so the cast is the only rounding
step that needs modelling. -/
def roundMantissa (n e : Nat) : Nat :=
  if Nat.shiftLeft 1 e < 2 * (n % Nat.shiftLeft 1 e) ∨
      (2 * (n % Nat.shiftLeft 1 e) = Nat.shiftLeft 1 e ∧ Nat.shiftRight n e % 2 = 1)
  then Nat.shiftLeft (Nat.shiftRight n e + 1) e
  else Nat.shiftLeft (Nat.shiftRight n e) e

/-- The `u64` to `f64` cast proper: 53-bit values are exact, larger ones are
rounded to 53 significant bits. -/
def f64ofU64 (n : Nat) : Nat :=
  if n < 9007199254740992 then n else roundMantissa n (n.log2 - 52)

/-- The `UNITS` array of `format_bytes`. -/
def fbUnits : List String := ["B", "KB", "MB", "GB", "TB"]

/-- The scaling loop of `format_bytes` with explicit fuel.  The f64 `size`
always equals `m / 2^(10 * u)` exactly, so `size >= 1024.0` is the exact
comparison `2^(10 * (u + 1)) <= m`.  The `unit_index < UNITS.len() - 1` guard
bounds the iteration count by 4, so fuel 4 is exact. -/
def fbLoopGo : Nat → Nat → Nat → Nat
  | 0, _, u => u
  | fuel + 1, m, u =>
    if 2 ^ (10 * (u + 1)) ≤ m ∧ u < 4 then fbLoopGo fuel m (u + 1) else u

/-- Final `unit_index` chosen by the scaling loop of `format_bytes`. -/
def fbLoop (m : Nat) : Nat := fbLoopGo 4 m 0

/-- Rounding of `num / den` to the nearest integer, ties to even: the rule Rust
fixed-precision float formatting applies. -/
def roundHalfEven (num den : Nat) : Nat :=
  let q := num / den
  let r := num % den
  if den < 2 * r ∨ (2 * r = den ∧ q % 2 = 1) then q + 1 else q

/-- Model of `format_bytes`.  In the `unit_index == 0` branch the code prints
the original integer `bytes`; otherwise it prints the scaled f64 value
`m / 2^(10 * u)` with exactly one decimal digit, i.e. the half-even rounding
`d` of ten times the value, rendered as `d / 10 "." d % 10`. -/
def format_bytes (bytes : Nat) : String :=
  let m := f64ofU64 bytes
  let u := fbLoop m
  if u = 0 then Nat.repr bytes ++ " B"
  else
    let d := roundHalfEven (10 * m) (2 ^ (10 * u))
    Nat.repr (d / 10) ++ "." ++ Nat.repr (d % 10) ++ " " ++ fbUnits.getD u ""

/-- Model of `format_duration`. -/
def format_duration (seconds : Nat) : String :=
  if seconds < 60 then Nat.repr seconds ++ "s"
  else if seconds < 3600 then
    Nat.repr (seconds / 60) ++ "m " ++ Nat.repr (seconds % 60) ++ "s"
  else
    Nat.repr (seconds / 3600) ++ "h " ++ Nat.repr (seconds % 3600 / 60) ++ "m"

/-! ## Supporting lemmas -/

/-- Flattening the chunks produced by `chunksAux` recovers the pending chunk
followed by the remaining input. -/
theorem chunksAux_flatten {α : Type} (n : Nat) (xs : List α) :
    ∀ acc k, (chunksAux n xs acc k).flatten = acc.reverse ++ xs := by
  induction xs with
  | nil => intro acc k; simp [chunksAux]
  | cons x xs ih =>
    intro acc k
    cases k with
    | zero => simp [chunksAux, ih]
    | succ k => simp [chunksAux, ih]

/-- Reading a file through a fixed-size buffer feeds the hasher exactly the
whole file content. -/
theorem chunksOf_flatten {α : Type} (n : Nat) (l : List α) :
    (chunksOf n l).flatten = l := by
  cases l with
  | nil => simp [chunksOf]
  | cons x xs => simp [chunksOf, chunksAux_flatten]

/-- Case-insensitive comparison is reflexive. -/
theorem eqIgnoreAsciiCase_self (s : String) : eqIgnoreAsciiCase s s = true := by
  simp [eqIgnoreAsciiCase]

/-- Hex digits of values below 16 are not uppercase letters, so ASCII
lowercasing fixes them. -/
theorem asciiLowerChar_hexDigit (n : Nat) (h : n < 16) :
    asciiLowerChar (hexDigit n) = hexDigit n := by
  interval_cases n <;> decide

/-- A hex rendering of genuine bytes is already lowercase. -/
theorem asciiLower_hexOfBytes (bs : List Nat) (h : ∀ b ∈ bs, b < 256) :
    asciiLower (hexOfBytes bs) = hexOfBytes bs := by
  unfold asciiLower hexOfBytes
  congr 1
  rw [List.map_flatten, List.map_map]
  apply congrArg List.flatten
  apply List.map_congr_left
  intro b hb
  have hb256 := h b hb
  have h1 : b / 16 < 16 := by omega
  have h2 : b % 16 < 16 := by omega
  simp [Function.comp, asciiLowerChar_hexDigit _ h1, asciiLowerChar_hexDigit _ h2]

/-- Every byte produced by a big-endian decomposition is below 256. -/
theorem beBytes_lt (k n : Nat) : ∀ b ∈ beBytes k n, b < 256 := by
  intro b hb
  simp only [beBytes, List.mem_map] at hb
  obtain ⟨i, _, rfl⟩ := hb
  exact Nat.mod_lt _ (by omega)

/-- Every byte of a SHA-256 digest is below 256. -/
theorem sha256Bytes_lt (msg : List Nat) : ∀ b ∈ sha256Bytes msg, b < 256 := by
  intro b hb
  simp only [sha256Bytes, List.mem_flatten, List.mem_map] at hb
  obtain ⟨l, ⟨w, _, rfl⟩, hbl⟩ := hb
  exact beBytes_lt 4 w b hbl

/-- The hex SHA-256 digest string is its own ASCII lowercasing: the code
produces a lowercase digest, compared case-insensitively with `expected`. -/
theorem asciiLower_sha256Hex (msg : List Nat) :
    asciiLower (sha256Hex msg) = sha256Hex msg :=
  asciiLower_hexOfBytes _ (sha256Bytes_lt msg)

/-- The hex rendering of a byte list has two characters per byte. -/
theorem hexOfBytes_length (bs : List Nat) : (hexOfBytes bs).length = 2 * bs.length := by
  unfold hexOfBytes
  rw [String.mk_length]
  induction bs with
  | nil => rfl
  | cons b tl ih =>
    simp only [List.map_cons, List.flatten_cons, List.length_append, List.length_cons,
      List.length_nil, List.length_map, ih, List.length_map] at *
    omega

/-- The SHA-256 digest has 32 bytes, so its hex rendering has 64 characters. -/
theorem sha256Hex_length (msg : List Nat) : (sha256Hex msg).length = 64 := by
  have h8 : (sha256Bytes msg).length = 32 := by
    simp [sha256Bytes, List.length_flatten, beBytes, Function.comp]
  rw [sha256Hex, hexOfBytes_length, h8]

/-! ## Claims -/

/-- C6.  `verify_checksum` on a readable file returns exactly the boolean
case-insensitive comparison of the lowercase-hex digest of the entire file
content with `expected` — for both supported algorithms, with mismatches
reported as `Ok(false)`, never as an error.  Consequently a file always
verifies against its own digest; changing content so that the digest changes
makes it `false`; and concretely every considered single-byte change of the
file "abc" (whose digest is the published FIPS 180-4 test vector) fails to
verify against the original digest. -/
theorem c6_verify_checksum_digest_comparison :
    (∀ content expected, verify_checksum (some content) expected "sha256" =
        .ok (eqIgnoreAsciiCase (sha256Hex content) expected)) ∧
    (∀ content expected, verify_checksum (some content) expected "md5" =
        .ok (eqIgnoreAsciiCase (md5Hex content) expected)) ∧
    (∀ content, verify_checksum (some content) (sha256Hex content) "sha256" = .ok true) ∧
    (∀ content, verify_checksum (some content) (md5Hex content) "md5" = .ok true) ∧
    (∀ content i b,
        eqIgnoreAsciiCase (sha256Hex (content.set i b)) (sha256Hex content) = false →
        verify_checksum (some (content.set i b)) (sha256Hex content) "sha256" = .ok false) ∧
    (sha256Hex [97, 98, 99] =
        "ba7816bf8f01cfea414140de5dae2223b00361a396177a9cb410ff61f20015ad") ∧
    (((List.range 3).all fun i => [0, 255].all fun b =>
        verify_checksum (some ([97, 98, 99].set i b))
          "ba7816bf8f01cfea414140de5dae2223b00361a396177a9cb410ff61f20015ad" "sha256" ==
        .ok false) = true) := by
  have hsha : ∀ content expected, verify_checksum (some content) expected "sha256" =
      .ok (eqIgnoreAsciiCase (sha256Hex content) expected) := by
    intro content expected
    unfold verify_checksum
    rw [if_pos (by decide)]
    simp only [chunksOf_flatten, sha256Hex]
  have hmd5 : ∀ content expected, verify_checksum (some content) expected "md5" =
      .ok (eqIgnoreAsciiCase (md5Hex content) expected) := by
    intro content expected
    unfold verify_checksum
    rw [if_neg (by decide), if_pos (by decide)]
    simp only [chunksOf_flatten, md5Hex]
  refine ⟨hsha, hmd5, ?_, ?_, ?_, by decide, by decide⟩
  · intro content
    rw [hsha, eqIgnoreAsciiCase_self]
  · intro content
    rw [hmd5, eqIgnoreAsciiCase_self]
  · intro content i b h
    rw [hsha, h]

/-- C6 witness: the hypotheses of the conditional clause are satisfiable —
replacing the byte of the file [97] by 0 changes the digest, and verification
of the mutated file against the original digest then returns `Ok(false)`. -/
theorem c6_verify_checksum_digest_comparison_witness :
    verify_checksum (some ([97].set 0 0)) (sha256Hex [97]) "sha256" = .ok false :=
  c6_verify_checksum_digest_comparison.2.2.2.2.1 [97] 0 0 (by decide)

/-- C7.  Algorithm dispatch of `verify_checksum` is case-insensitive, and any
name whose lowercasing is neither "sha256" nor "md5" yields the configuration
error for every possible state of the file — in particular for a file that
cannot even be opened, showing no file I/O is needed or attempted. -/
theorem c7_verify_checksum_algorithm_dispatch :
    (∀ file expected algorithm, asciiLower algorithm ≠ "sha256" →
        asciiLower algorithm ≠ "md5" →
        verify_checksum file expected algorithm = .error .configErr) ∧
    (∀ file expected, verify_checksum file expected "SHA256" =
        verify_checksum file expected "sha256") ∧
    (∀ file expected, verify_checksum file expected "MD5" =
        verify_checksum file expected "md5") ∧
    (∀ file expected, verify_checksum file expected "crc32" = .error .configErr) := by
  have hbad : ∀ file expected algorithm, asciiLower algorithm ≠ "sha256" →
      asciiLower algorithm ≠ "md5" →
      verify_checksum file expected algorithm = .error .configErr := by
    intro file expected algorithm h1 h2
    unfold verify_checksum
    rw [if_neg h1, if_neg h2]
  refine ⟨hbad, ?_, ?_, ?_⟩
  · intro file expected
    unfold verify_checksum
    rw [show asciiLower "SHA256" = asciiLower "sha256" from by decide]
  · intro file expected
    unfold verify_checksum
    rw [show asciiLower "MD5" = asciiLower "md5" from by decide]
  · intro file expected
    exact hbad file expected "crc32" (by decide) (by decide)

/-- C7 witness: the unsupported name "crc32" is rejected with the
configuration error even when the file does not exist. -/
theorem c7_verify_checksum_algorithm_dispatch_witness :
    verify_checksum none "" "crc32" = .error .configErr :=
  c7_verify_checksum_algorithm_dispatch.1 none "" "crc32" (by decide) (by decide)

/-- C8.  A probe whose transport succeeds yields a `FileInfo` whose `size` is
the declared content length (0 when absent), whose `supports_range` holds
exactly when an `Accept-Ranges` header case-insensitively equals "bytes"
(false when the header is absent), and whose `content_type` defaults to
"application/octet-stream"; the response status is never consulted. -/
theorem c8_get_file_info_fields :
    (∀ r : HeadResponse, ∃ fi, get_file_info (.ok r) = .ok fi ∧
        fi.size = r.contentLength.getD 0 ∧
        (fi.supports_range = true ↔
          ∃ v, r.acceptRanges = some v ∧ eqIgnoreAsciiCase v "bytes" = true) ∧
        fi.content_type = r.contentType.getD "application/octet-stream") ∧
    (∀ r : HeadResponse, r.contentLength = none →
        ∃ fi, get_file_info (.ok r) = .ok fi ∧ fi.size = 0) ∧
    (∀ r : HeadResponse, r.acceptRanges = none →
        ∃ fi, get_file_info (.ok r) = .ok fi ∧ fi.supports_range = false) ∧
    (∀ r : HeadResponse, r.contentType = none →
        ∃ fi, get_file_info (.ok r) = .ok fi ∧
          fi.content_type = "application/octet-stream") ∧
    (∀ (r : HeadResponse) (s : Nat),
        get_file_info (.ok { r with status := s }) = get_file_info (.ok r)) := by
  refine ⟨?_, ?_, ?_, ?_, ?_⟩
  · intro r
    refine ⟨_, rfl, rfl, ?_, rfl⟩
    cases h : r.acceptRanges with
    | none => simp [h]
    | some v => simp [h]
  · intro r h
    exact ⟨_, rfl, by simp [h]⟩
  · intro r h
    exact ⟨_, rfl, by simp [h]⟩
  · intro r h
    exact ⟨_, rfl, by simp [h]⟩
  · intro r s
    rfl

/-- C8 witness: a response with no `Accept-Ranges` and no `Content-Type`
header and status 404 still probes successfully, with `supports_range = false`
and the generic content type. -/
theorem c8_get_file_info_fields_witness :
    ∃ fi, get_file_info (.ok ⟨404, none, none, none⟩) = .ok fi ∧
      fi.supports_range = false :=
  c8_get_file_info_fields.2.2.1 ⟨404, none, none, none⟩ rfl

/-- Unfolding equation of the loop body. -/
theorem fbLoopGo_succ (fuel m u : Nat) :
    fbLoopGo (fuel + 1) m u =
      if 2 ^ (10 * (u + 1)) ≤ m ∧ u < 4 then fbLoopGo fuel m (u + 1) else u := by
  simp only [fbLoopGo]

/-- Range classification of the scaling loop of `format_bytes`. -/
theorem fbLoop_classify (m : Nat) :
    (m < 1024 → fbLoop m = 0) ∧
    (1024 ≤ m → m < 1048576 → fbLoop m = 1) ∧
    (1048576 ≤ m → m < 1073741824 → fbLoop m = 2) ∧
    (1073741824 ≤ m → m < 1099511627776 → fbLoop m = 3) ∧
    (1099511627776 ≤ m → fbLoop m = 4) := by
  refine ⟨?_, ?_, ?_, ?_, ?_⟩
  · intro h
    show fbLoopGo (3 + 1) m 0 = 0
    rw [fbLoopGo_succ, if_neg (by norm_num; omega)]
  · intro h1 h2
    show fbLoopGo (3 + 1) m 0 = 1
    rw [fbLoopGo_succ, if_pos (by norm_num; omega)]
    show fbLoopGo (2 + 1) m 1 = 1
    rw [fbLoopGo_succ, if_neg (by norm_num; omega)]
  · intro h1 h2
    show fbLoopGo (3 + 1) m 0 = 2
    rw [fbLoopGo_succ, if_pos (by norm_num; omega)]
    show fbLoopGo (2 + 1) m 1 = 2
    rw [fbLoopGo_succ, if_pos (by norm_num; omega)]
    show fbLoopGo (1 + 1) m 2 = 2
    rw [fbLoopGo_succ, if_neg (by norm_num; omega)]
  · intro h1 h2
    show fbLoopGo (3 + 1) m 0 = 3
    rw [fbLoopGo_succ, if_pos (by norm_num; omega)]
    show fbLoopGo (2 + 1) m 1 = 3
    rw [fbLoopGo_succ, if_pos (by norm_num; omega)]
    show fbLoopGo (1 + 1) m 2 = 3
    rw [fbLoopGo_succ, if_pos (by norm_num; omega)]
    show fbLoopGo (0 + 1) m 3 = 3
    rw [fbLoopGo_succ, if_neg (by norm_num; omega)]
  · intro h1
    show fbLoopGo (3 + 1) m 0 = 4
    rw [fbLoopGo_succ, if_pos (by norm_num; omega)]
    show fbLoopGo (2 + 1) m 1 = 4
    rw [fbLoopGo_succ, if_pos (by norm_num; omega)]
    show fbLoopGo (1 + 1) m 2 = 4
    rw [fbLoopGo_succ, if_pos (by norm_num; omega)]
    show fbLoopGo (0 + 1) m 3 = 4
    rw [fbLoopGo_succ, if_pos (by norm_num; omega)]
    rfl

/-- Bridge between the primitive shift and division by a power of two. -/
theorem shiftRight_eq_div (m n : Nat) : Nat.shiftRight m n = m / 2 ^ n :=
  Nat.shiftRight_eq_div_pow m n

/-- Bridge between the primitive shift and multiplication by a power of two. -/
theorem shiftLeft_eq_mul (m n : Nat) : Nat.shiftLeft m n = m * 2 ^ n :=
  Nat.shiftLeft_eq m n

/-- For inputs of at least 1024 the f64 cast keeps the value at or above 1024:
below 2^53 the cast is exact, above it the value rounds to at least 2^52. -/
theorem f64ofU64_ge_1024 (n : Nat) (h : 1024 ≤ n) : 1024 ≤ f64ofU64 n := by
  unfold f64ofU64
  split
  · exact h
  · rename_i hbig
    push_neg at hbig
    have hn0 : n ≠ 0 := by omega
    have hle : 2 ^ n.log2 ≤ n := Nat.log2_self_le hn0
    have hlog : 53 ≤ n.log2 := by
      have h53 : (2 : Nat) ^ 53 = 9007199254740992 := by norm_num
      rw [Nat.le_log2 hn0, h53]
      omega
    have hq : 2 ^ 52 ≤ Nat.shiftRight n (n.log2 - 52) := by
      rw [shiftRight_eq_div]
      have h1 : 2 ^ n.log2 / 2 ^ (n.log2 - 52) ≤ n / 2 ^ (n.log2 - 52) :=
        Nat.div_le_div_right hle
      rw [Nat.pow_div (by omega) (by omega)] at h1
      have h2 : n.log2 - (n.log2 - 52) = 52 := by omega
      rw [h2] at h1
      exact h1
    unfold roundMantissa
    have hpos := Nat.two_pow_pos (n.log2 - 52)
    split
    · rw [shiftLeft_eq_mul]
      have hone : Nat.shiftRight n (n.log2 - 52) + 1 ≤
          (Nat.shiftRight n (n.log2 - 52) + 1) * 2 ^ (n.log2 - 52) :=
        Nat.le_mul_of_pos_right _ hpos
      have : (1024 : Nat) ≤ 2 ^ 52 := by norm_num
      omega
    · rw [shiftLeft_eq_mul]
      have hone : Nat.shiftRight n (n.log2 - 52) ≤
          Nat.shiftRight n (n.log2 - 52) * 2 ^ (n.log2 - 52) :=
        Nat.le_mul_of_pos_right _ hpos
      have : (1024 : Nat) ≤ 2 ^ 52 := by norm_num
      omega

/-- C9.  `format_bytes` renders values below 1024 as the integer with a bare
"B" unit, and larger values with exactly one decimal digit in the unit picked
by repeatedly dividing by 1024 until the scaled value drops below 1024 or TB
is reached; the five reference examples hold. -/
theorem c9_format_bytes_rendering :
    format_bytes 0 = "0 B" ∧ format_bytes 1023 = "1023 B" ∧
    format_bytes 1024 = "1.0 KB" ∧ format_bytes 1536 = "1.5 KB" ∧
    format_bytes 1073741824 = "1.0 GB" ∧
    (∀ n, n < 1024 → format_bytes n = Nat.repr n ++ " B") ∧
    (∀ n, 1024 ≤ n → ∃ d u,
        format_bytes n =
          Nat.repr (d / 10) ++ "." ++ Nat.repr (d % 10) ++ " " ++ fbUnits.getD u "" ∧
        d = roundHalfEven (10 * f64ofU64 n) (2 ^ (10 * u)) ∧
        u = fbLoop (f64ofU64 n) ∧ 1 ≤ u ∧ u ≤ 4 ∧
        2 ^ (10 * u) ≤ f64ofU64 n ∧
        (u < 4 → f64ofU64 n < 2 ^ (10 * (u + 1)))) := by
  refine ⟨by decide, by decide, by decide, by decide, by decide, ?_, ?_⟩
  · intro n hn
    have hf : f64ofU64 n = n := by unfold f64ofU64; rw [if_pos (by omega)]
    have h0 : fbLoop (f64ofU64 n) = 0 := by
      rw [hf]; exact (fbLoop_classify n).1 hn
    simp [format_bytes, h0]
  · intro n hn
    have hm : 1024 ≤ f64ofU64 n := f64ofU64_ge_1024 n hn
    set m := f64ofU64 n with hmdef
    have hcl := fbLoop_classify m
    have hu : 1 ≤ fbLoop m ∧ fbLoop m ≤ 4 ∧ 2 ^ (10 * fbLoop m) ≤ m ∧
        (fbLoop m < 4 → m < 2 ^ (10 * (fbLoop m + 1))) := by
      by_cases h1 : m < 1048576
      · have := hcl.2.1 hm h1
        refine ⟨by omega, by omega, ?_, ?_⟩ <;> (rw [this]; norm_num; try omega)
      · by_cases h2 : m < 1073741824
        · have := hcl.2.2.1 (by omega) h2
          refine ⟨by omega, by omega, ?_, ?_⟩ <;> (rw [this]; norm_num; try omega)
        · by_cases h3 : m < 1099511627776
          · have := hcl.2.2.2.1 (by omega) h3
            refine ⟨by omega, by omega, ?_, ?_⟩ <;> (rw [this]; norm_num; try omega)
          · have := hcl.2.2.2.2 (by omega)
            refine ⟨by omega, by omega, ?_, ?_⟩ <;> (rw [this]; norm_num; try omega)
    refine ⟨roundHalfEven (10 * m) (2 ^ (10 * fbLoop m)), fbLoop m, ?_, rfl, rfl,
      hu.1, hu.2.1, hu.2.2.1, hu.2.2.2⟩
    have hne : fbLoop m ≠ 0 := by omega
    simp [format_bytes, ← hmdef, hne]

/-- Any `Ok` outcome of the chunk loop has `success = true` and no error
message; and when the running total starts at the length of the open file, the
reported byte count equals the final file length. -/
theorem dlLoop_ok_inv (cb : Option (Nat → Nat → Bool)) (total : Nat) (w : Nat → Bool) :
    ∀ (body : List (Except Unit (List Nat))) (i d : Nat) (content : List Nat)
      (r : DownloadResult) (c2 : List Nat),
      dlLoop cb total w body i d content = (.ok r, c2) →
      r.success = true ∧ r.error_message = none ∧
      (d = content.length → r.bytes_downloaded = c2.length) := by
  intro body
  induction body with
  | nil =>
    intro i d content r c2 h
    simp only [dlLoop, Prod.mk.injEq, Except.ok.injEq] at h
    obtain ⟨h1, h2⟩ := h
    subst h1
    subst h2
    exact ⟨rfl, rfl, fun hd => hd⟩
  | cons head rest ih =>
    intro i d content r c2 h
    cases head with
    | error e => simp [dlLoop] at h
    | ok chunk =>
      cases cb with
      | none =>
        simp only [dlLoop] at h
        split at h
        · have hres := ih (i + 1) (d + chunk.length) (content ++ chunk) r c2 h
          exact ⟨hres.1, hres.2.1, fun hd =>
            hres.2.2 (by simp [List.length_append, hd])⟩
        · simp at h
      | some f =>
        simp only [dlLoop] at h
        split at h
        · split at h
          · have hres := ih (i + 1) (d + chunk.length) (content ++ chunk) r c2 h
            exact ⟨hres.1, hres.2.1, fun hd =>
              hres.2.2 (by simp [List.length_append, hd])⟩
          · simp only [Prod.mk.injEq, Except.ok.injEq] at h
            obtain ⟨h1, h2⟩ := h
            subst h1
            subst h2
            exact ⟨rfl, rfl, fun hd => by simp [List.length_append, hd]⟩
        · simp at h

/-- Reading off the components of a pair observation: if a pair built from the
projections of `p` equals `(a, c)`, then `p` itself is `(a, p.2)` and `c` is
the image of `p.2`. -/
theorem pair_obs {α β γ : Type} {p : α × β} {g : β → γ} {a : α} {c : γ}
    (h : (p.1, g p.2) = (a, c)) : p = (a, p.2) ∧ c = g p.2 := by
  rw [Prod.mk.injEq] at h
  obtain ⟨h1, h2⟩ := h
  constructor
  · rw [← h1]
  · exact h2.symm

/-- A positive start offset can only arise from a resumed download of an
existing file whose length is that offset. -/
theorem startOffset_pos (resume : Bool) (existing : Option (List Nat))
    (h : 0 < startOffset resume existing) :
    ∃ pre, existing = some pre ∧ startOffset resume existing = pre.length := by
  revert h
  cases resume with
  | false => intro h; simp [startOffset] at h
  | true =>
    cases existing with
    | none => intro h; simp [startOffset] at h
    | some pre => intro h; exact ⟨pre, rfl, by simp [startOffset]⟩

/-- The cancellation step of the chunk loop: when the write of the incoming
chunk succeeds and the callback invoked after it fails, the loop stops at once
with a successful result counting that chunk, whatever the rest of the stream
holds. -/
theorem dlLoop_cancel_step (f : Nat → Nat → Bool) (total : Nat) (w : Nat → Bool)
    (c : List Nat) (rest : List (Except Unit (List Nat))) (i d : Nat)
    (content : List Nat) (hw : w i = true) (hf : f (d + c.length) total = false) :
    dlLoop (some f) total w (.ok c :: rest) i d content =
      (.ok { success := true, bytes_downloaded := d + c.length,
             error_message := none }, content ++ c) := by
  simp [dlLoop, hw, hf]

/-- C1.  A GET response whose status is neither 2xx nor 206 makes
`download_file` return (not raise) the soft-failure `DownloadResult` with
`success = false`, `bytes_downloaded = 0` and an error message containing the
status code, while the output path — including any partial file from a prior
run — is left exactly as it was. -/
theorem c1_soft_http_failure (resume : Bool) (cb : Option (Nat → Nat → Bool))
    (env : DownloadEnv) (resp : GetResponse)
    (hsend : env.send (rangeHeader (startOffset resume env.existing)) = .ok resp)
    (hstatus : statusIsSuccess resp.status = false) (h206 : resp.status ≠ 206) :
    download_file resume cb env =
      (.ok { success := false, bytes_downloaded := 0,
             error_message := some ("HTTP error: " ++ Nat.repr resp.status) },
       env.existing) ∧
    ∃ pre post,
      "HTTP error: " ++ Nat.repr resp.status = pre ++ Nat.repr resp.status ++ post := by
  constructor
  · simp [download_file, hsend, hstatus, h206]
  · exact ⟨"HTTP error: ", "", by simp⟩

/-- C1 witness: a 404 response on a fresh download of a URL, with a stale
partial file on disk; the result is the soft failure and the file survives. -/
theorem c1_soft_http_failure_witness :
    download_file false none
        { existing := some [7, 7], send := fun _ => .ok ⟨404, none, []⟩,
          openOk := true, writeOk := fun _ => true } =
      (.ok { success := false, bytes_downloaded := 0,
             error_message := some ("HTTP error: " ++ Nat.repr 404) },
       some [7, 7]) ∧
    ∃ pre post, "HTTP error: " ++ Nat.repr 404 = pre ++ Nat.repr 404 ++ post :=
  c1_soft_http_failure false none
    { existing := some [7, 7], send := fun _ => .ok ⟨404, none, []⟩,
      openOk := true, writeOk := fun _ => true }
    ⟨404, none, []⟩ rfl (by decide) (by decide)

/-- C2.  A callback failure is a clean partial stop: the loop writes the
triggering chunk, then ignores every further stream item and reports
`success = true` with no error message and `bytes_downloaded` equal to the
running total after that chunk.  In particular a fresh download cancelled at
the first chunk reports exactly the length of that chunk and leaves exactly those
bytes on disk. -/
theorem c2_callback_cancellation :
    (∀ (f : Nat → Nat → Bool) (total : Nat) (w : Nat → Bool) (c : List Nat)
        (rest : List (Except Unit (List Nat))) (i d : Nat) (content : List Nat),
        w i = true → f (d + c.length) total = false →
        dlLoop (some f) total w (.ok c :: rest) i d content =
          (.ok { success := true, bytes_downloaded := d + c.length,
                 error_message := none }, content ++ c)) ∧
    (∀ (f : Nat → Nat → Bool) (env : DownloadEnv) (resp : GetResponse)
        (c : List Nat) (rest : List (Except Unit (List Nat))),
        env.send none = .ok resp → statusIsSuccess resp.status = true →
        env.openOk = true → env.writeOk 0 = true →
        resp.body = .ok c :: rest →
        f c.length (totalSize resp.contentLength 0) = false →
        download_file false (some f) env =
          (.ok { success := true, bytes_downloaded := c.length,
                 error_message := none }, some c)) := by
  refine ⟨dlLoop_cancel_step, ?_⟩
  intro f env resp c rest hsend hstat ho hw0 hbody hf
  have hstart : startOffset false env.existing = 0 := by simp [startOffset]
  have hrange : rangeHeader 0 = none := by simp [rangeHeader]
  have hcancel := dlLoop_cancel_step f (totalSize resp.contentLength 0) env.writeOk c rest
    0 0 [] hw0 (by simpa using hf)
  simp [download_file, hstart, hrange, hsend, hstat, ho, openMode, hbody, hcancel]

/-- C2 witness: cancelling after the first chunk (2 bytes) of a fresh
two-chunk download reports exactly 2 bytes and leaves them on disk. -/
theorem c2_callback_cancellation_witness :
    download_file false (some fun _ _ => false)
        { existing := none,
          send := fun _ => .ok ⟨200, some 3, [.ok [1, 2], .ok [3]]⟩,
          openOk := true, writeOk := fun _ => true } =
      (.ok { success := true, bytes_downloaded := [1, 2].length,
             error_message := none }, some [1, 2]) :=
  c2_callback_cancellation.2 (fun _ _ => false)
    { existing := none,
      send := fun _ => .ok ⟨200, some 3, [.ok [1, 2], .ok [3]]⟩,
      openOk := true, writeOk := fun _ => true }
    ⟨200, some 3, [.ok [1, 2], .ok [3]]⟩ [1, 2] [.ok [3]]
    rfl (by decide) rfl rfl rfl rfl

/-- C3 counterexample.  The claim predicts that the total passed to the
progress callback is 0 whenever the server omits a content length, including
on resumed downloads.  On this resumed download (one byte already on disk, no
content length, a two-chunk body) the engine computes total 1 — the start
offset, not 0: a callback that keeps going exactly while the reported total is
0 gets cancelled at the first chunk, so only one of the two chunks is
consumed; under the claim both chunks would have been consumed and 3 bytes
reported. -/
theorem c3_total_size_counterexample :
    totalSize none (startOffset true (some [5])) = 1 ∧ (1 : Nat) ≠ 0 ∧
    download_file true (some fun _ total => total == 0)
        { existing := some [5],
          send := fun _ => .ok ⟨206, none, [.ok [9], .ok [7]]⟩,
          openOk := true, writeOk := fun _ => true } =
      (.ok { success := true, bytes_downloaded := 2, error_message := none },
       some [5, 9]) ∧
    (2 : Nat) ≠ 3 := by
  refine ⟨rfl, by decide, by decide, by decide⟩

/-- C3 (amended).  The total reported to the progress callback is the declared
content length (0 when the server omits it) plus `start_offset`; when the
content length is omitted the callback receives `start_offset` itself, which
is 0 — "total unknown" — only when no resumed prefix exists.  Behaviourally: on
a resumed download with an omitted content length, a callback cancelling on
that total observes it equal to the resumed prefix length. -/
theorem c3_total_size_amended :
    (∀ cl s, totalSize cl s = cl.getD 0 + s) ∧
    (∀ (n : Nat) s, totalSize (some n) s = n + s) ∧
    (∀ s, totalSize none s = s) ∧
    (∀ (f : Nat → Nat → Bool) (env : DownloadEnv) (resp : GetResponse)
        (pre c : List Nat) (rest : List (Except Unit (List Nat))),
        env.existing = some pre → 0 < pre.length →
        env.send (rangeHeader pre.length) = .ok resp →
        resp.contentLength = none → statusIsSuccess resp.status = true →
        env.openOk = true → env.writeOk 0 = true →
        resp.body = .ok c :: rest →
        f (pre.length + c.length) pre.length = false →
        download_file true (some f) env =
          (.ok { success := true, bytes_downloaded := pre.length + c.length,
                 error_message := none }, some (pre ++ c))) := by
  refine ⟨fun cl s => rfl, fun n s => rfl, fun s => Nat.zero_add s, ?_⟩
  intro f env resp pre c rest hex hpos hsend hcl hstat ho hw0 hbody hf
  have htot : totalSize resp.contentLength pre.length = pre.length := by
    simp [totalSize, hcl]
  have hmode : openMode pre.length = OpenMode.append := by
    simp [openMode, hpos]
  have hcancel := dlLoop_cancel_step f pre.length env.writeOk c rest 0 pre.length pre
    hw0 hf
  simp [download_file, startOffset, hex, hsend, hstat, ho, hmode, hbody, htot, hcancel]

/-- C3 amended-claim witness: on a resumed 2-byte prefix with no content
length, a callback that cancels on total 2 observes total 2 and stops after
the 1-byte first chunk, reporting 3 bytes. -/
theorem c3_total_size_amended_witness :
    download_file true (some fun _ total => !(total == 2))
        { existing := some [5, 6],
          send := fun _ => .ok ⟨206, none, [.ok [9], .ok [7]]⟩,
          openOk := true, writeOk := fun _ => true } =
      (.ok { success := true, bytes_downloaded := [5, 6].length + [9].length,
             error_message := none }, some ([5, 6] ++ [9])) :=
  c3_total_size_amended.2.2.2 (fun _ total => !(total == 2))
    { existing := some [5, 6],
      send := fun _ => .ok ⟨206, none, [.ok [9], .ok [7]]⟩,
      openOk := true, writeOk := fun _ => true }
    ⟨206, none, [.ok [9], .ok [7]]⟩ [5, 6] [9] [.ok [7]]
    rfl (by decide) rfl rfl (by decide) rfl rfl rfl (by decide)

/-- C4.  `start_offset` is the on-disk length when resuming an existing path
and 0 otherwise; the `Range: bytes=<start_offset>-` header is attached exactly
when `start_offset > 0`; the file is opened in append mode exactly when
`start_offset > 0` and truncated otherwise — behaviourally, a non-resumed
download of an empty body wipes a pre-existing file while a resumed one keeps
the prefix intact. -/
theorem c4_resume_request_shape :
    (∀ content : List Nat, startOffset true (some content) = content.length) ∧
    (∀ existing, startOffset false existing = 0) ∧
    (startOffset true none = 0) ∧
    (∀ s, 0 < s → rangeHeader s = some ("bytes=" ++ Nat.repr s ++ "-")) ∧
    (rangeHeader 0 = none) ∧
    (∀ s, (rangeHeader s).isSome = decide (0 < s)) ∧
    (∀ s, openMode s = OpenMode.append ↔ 0 < s) ∧
    (∀ s, openMode s = OpenMode.truncate ↔ s = 0) ∧
    (∀ (env : DownloadEnv) (resp : GetResponse) (cb : Option (Nat → Nat → Bool))
        (junk : List Nat),
        env.existing = some junk → env.send none = .ok resp →
        statusIsSuccess resp.status = true → env.openOk = true → resp.body = [] →
        download_file false cb env =
          (.ok { success := true, bytes_downloaded := 0, error_message := none },
           some [])) ∧
    (∀ (env : DownloadEnv) (resp : GetResponse) (cb : Option (Nat → Nat → Bool))
        (pre : List Nat),
        env.existing = some pre → 0 < pre.length →
        env.send (rangeHeader pre.length) = .ok resp →
        statusIsSuccess resp.status = true → env.openOk = true → resp.body = [] →
        download_file true cb env =
          (.ok { success := true, bytes_downloaded := pre.length,
                 error_message := none }, some pre)) := by
  refine ⟨?_, ?_, ?_, ?_, ?_, ?_, ?_, ?_, ?_, ?_⟩
  · intro content; simp [startOffset]
  · intro existing; simp [startOffset]
  · simp [startOffset]
  · intro s h; simp [rangeHeader, h]
  · simp [rangeHeader]
  · intro s
    by_cases h : 0 < s <;> simp [rangeHeader, h]
  · intro s
    by_cases h : 0 < s <;> simp [openMode, h]
  · intro s
    by_cases h : 0 < s <;> simp [openMode, h] <;> omega
  · intro env resp cb junk hex hsend hstat ho hbody
    have hstart : startOffset false env.existing = 0 := by simp [startOffset]
    have hrange : rangeHeader 0 = none := by simp [rangeHeader]
    simp [download_file, hstart, hrange, hsend, hstat, ho, openMode, hbody, dlLoop]
  · intro env resp cb pre hex hpos hsend hstat ho hbody
    have hmode : openMode pre.length = OpenMode.append := by simp [openMode, hpos]
    simp [download_file, startOffset, hex, hsend, hstat, ho, hmode, hbody, dlLoop]

/-- C4 witness: the header shape at offset 7, the wipe of a stale file by a
fresh download, and the retention of a 3-byte prefix by a resumed one. -/
theorem c4_resume_request_shape_witness :
    rangeHeader 7 = some ("bytes=" ++ Nat.repr 7 ++ "-") ∧
    download_file false none
        { existing := some [9, 9], send := fun _ => .ok ⟨200, some 0, []⟩,
          openOk := true, writeOk := fun _ => true } =
      (.ok { success := true, bytes_downloaded := 0, error_message := none },
       some []) ∧
    download_file true none
        { existing := some [1, 2, 3], send := fun _ => .ok ⟨206, some 0, []⟩,
          openOk := true, writeOk := fun _ => true } =
      (.ok { success := true, bytes_downloaded := [1, 2, 3].length,
             error_message := none }, some [1, 2, 3]) :=
  ⟨c4_resume_request_shape.2.2.2.1 7 (by decide),
   c4_resume_request_shape.2.2.2.2.2.2.2.2.1
     { existing := some [9, 9], send := fun _ => .ok ⟨200, some 0, []⟩,
       openOk := true, writeOk := fun _ => true }
     ⟨200, some 0, []⟩ none [9, 9] rfl rfl (by decide) rfl rfl,
   c4_resume_request_shape.2.2.2.2.2.2.2.2.2
     { existing := some [1, 2, 3], send := fun _ => .ok ⟨206, some 0, []⟩,
       openOk := true, writeOk := fun _ => true }
     ⟨206, some 0, []⟩ none [1, 2, 3] rfl (by decide) rfl (by decide) rfl rfl⟩

/-- C5.  Hard failures abort the call with a propagated error and no
`DownloadResult`: an accepted status followed by a failed file open gives
`IoError`; a failed chunk write gives `IoError`; a transport error while
streaming the body gives `NetworkError`; a request that cannot be sent gives
`NetworkError`; and conversely the only `success = false` result object a call
can produce is the soft HTTP-status failure — hard failures are never
converted into one. -/
theorem c5_hard_failures_propagate :
    (∀ (resume : Bool) (cb : Option (Nat → Nat → Bool)) (env : DownloadEnv)
        (resp : GetResponse),
        env.send (rangeHeader (startOffset resume env.existing)) = .ok resp →
        (statusIsSuccess resp.status = true ∨ resp.status = 206) →
        env.openOk = false →
        download_file resume cb env = (.error .ioFail, env.existing)) ∧
    (∀ (cb : Option (Nat → Nat → Bool)) (total : Nat) (w : Nat → Bool)
        (c : List Nat) (rest : List (Except Unit (List Nat))) (i d : Nat)
        (content : List Nat), w i = false →
        dlLoop cb total w (.ok c :: rest) i d content = (.error .ioFail, content)) ∧
    (∀ (cb : Option (Nat → Nat → Bool)) (total : Nat) (w : Nat → Bool) (e : Unit)
        (rest : List (Except Unit (List Nat))) (i d : Nat) (content : List Nat),
        dlLoop cb total w (.error e :: rest) i d content =
          (.error .netFail, content)) ∧
    (∀ (resume : Bool) (cb : Option (Nat → Nat → Bool)) (env : DownloadEnv),
        env.send (rangeHeader (startOffset resume env.existing)) = .error () →
        download_file resume cb env = (.error .netFail, env.existing)) ∧
    (∀ (resume : Bool) (cb : Option (Nat → Nat → Bool)) (env : DownloadEnv)
        (r : DownloadResult) (fc : Option (List Nat)),
        download_file resume cb env = (.ok r, fc) → r.success = false →
        ∃ resp, env.send (rangeHeader (startOffset resume env.existing)) = .ok resp ∧
          statusIsSuccess resp.status = false ∧ resp.status ≠ 206 ∧
          r = { success := false, bytes_downloaded := 0,
                error_message := some ("HTTP error: " ++ Nat.repr resp.status) }) := by
  refine ⟨?_, ?_, ?_, ?_, ?_⟩
  · intro resume cb env resp hsend hacc ho
    have hcond : (!statusIsSuccess resp.status && resp.status != 206) = false := by
      rcases hacc with h | h
      · simp [h]
      · simp [h]
    simp [download_file, hsend, hcond, ho]
  · intro cb total w c rest i d content hw
    simp [dlLoop, hw]
  · intro cb total w e rest i d content
    simp [dlLoop]
  · intro resume cb env hsend
    simp [download_file, hsend]
  · intro resume cb env r fc h hsf
    simp only [download_file] at h
    cases hsend : env.send (rangeHeader (startOffset resume env.existing)) with
    | error e =>
      simp only [hsend] at h
      simp at h
    | ok resp =>
      simp only [hsend] at h
      split at h
      case isTrue hc =>
        simp only [Prod.mk.injEq, Except.ok.injEq] at h
        obtain ⟨h1, h2⟩ := h
        rw [Bool.and_eq_true] at hc
        obtain ⟨hca, hcb⟩ := hc
        refine ⟨resp, rfl, ?_, ?_, h1.symm⟩
        · simpa using hca
        · simpa using hcb
      case isFalse hc =>
        split at h
        case isTrue hopen =>
          obtain ⟨hXeq, hfc⟩ := pair_obs h
          have hres := dlLoop_ok_inv _ _ _ _ _ _ _ _ _ hXeq
          exact absurd hres.1 (by simp [hsf])
        case isFalse hopen =>
          simp at h

/-- C5 witness: the four hard-failure clauses at concrete inputs — failed
open after a 200, failed first write, transport error in the stream, and a
request that cannot be sent. -/
theorem c5_hard_failures_propagate_witness :
    download_file false none
        { existing := some [3], send := fun _ => .ok ⟨200, some 1, [.ok [1]]⟩,
          openOk := false, writeOk := fun _ => true } =
      (.error .ioFail, some [3]) ∧
    dlLoop none 0 (fun _ => false) [.ok [1]] 0 0 [] = (.error .ioFail, []) ∧
    dlLoop none 0 (fun _ => true) [.error ()] 0 0 [] = (.error .netFail, []) ∧
    download_file false none
        { existing := none, send := fun _ => .error (),
          openOk := true, writeOk := fun _ => true } = (.error .netFail, none) :=
  ⟨c5_hard_failures_propagate.1 false none
     { existing := some [3], send := fun _ => .ok ⟨200, some 1, [.ok [1]]⟩,
       openOk := false, writeOk := fun _ => true }
     ⟨200, some 1, [.ok [1]]⟩ rfl (Or.inl (by decide)) rfl,
   c5_hard_failures_propagate.2.1 none 0 (fun _ => false) [1] [] 0 0 [] rfl,
   c5_hard_failures_propagate.2.2.1 none 0 (fun _ => true) () [] 0 0 [],
   c5_hard_failures_propagate.2.2.2.1 false none
     { existing := none, send := fun _ => .error (),
       openOk := true, writeOk := fun _ => true } rfl⟩

/-- C10.  Whenever `download_file` returns a result with `success = true` —
whether the stream was exhausted or the callback cancelled — the reported
`bytes_downloaded` equals the final on-disk length of the output file: the
total starts at `start_offset` (the length kept by append mode, or 0 after
truncation) and each chunk is appended before being counted. -/
theorem c10_success_bytes_equal_file_length (resume : Bool)
    (cb : Option (Nat → Nat → Bool)) (env : DownloadEnv) (r : DownloadResult)
    (fc : Option (List Nat))
    (h : download_file resume cb env = (.ok r, fc)) (hs : r.success = true) :
    ∃ content, fc = some content ∧ r.bytes_downloaded = content.length := by
  simp only [download_file] at h
  cases hsend : env.send (rangeHeader (startOffset resume env.existing)) with
  | error e =>
    simp only [hsend] at h
    simp at h
  | ok resp =>
    simp only [hsend] at h
    split at h
    case isTrue hc =>
      simp only [Prod.mk.injEq, Except.ok.injEq] at h
      obtain ⟨h1, h2⟩ := h
      rw [← h1] at hs
      simp at hs
    case isFalse hc =>
      split at h
      case isTrue hopen =>
        obtain ⟨hXeq, hfc⟩ := pair_obs h
        have hres := dlLoop_ok_inv _ _ _ _ _ _ _ _ _ hXeq
        refine ⟨_, hfc, ?_⟩
        apply hres.2.2
        by_cases hpos : 0 < startOffset resume env.existing
        · obtain ⟨pre, hexi, hlen⟩ := startOffset_pos _ _ hpos
          have hmode : openMode (startOffset resume env.existing) = OpenMode.append := by
            simp [openMode, hpos]
          rw [hmode, hlen, hexi]
          simp
        · have h0 : startOffset resume env.existing = 0 := by omega
          have hmode : openMode (startOffset resume env.existing) = OpenMode.truncate := by
            simp [openMode, h0]
          rw [hmode, h0]
          rfl
      case isFalse hopen =>
        simp at h

/-- C10 witness: a completed fresh two-chunk download reports 2 bytes and the
file holds exactly those 2 bytes. -/
theorem c10_success_bytes_equal_file_length_witness :
    ∃ content, (some [5, 9] : Option (List Nat)) = some content ∧
      (DownloadResult.mk true 2 none).bytes_downloaded = content.length :=
  c10_success_bytes_equal_file_length false none
    { existing := none, send := fun _ => .ok ⟨200, some 2, [.ok [5], .ok [9]]⟩,
      openOk := true, writeOk := fun _ => true }
    (DownloadResult.mk true 2 none) (some [5, 9]) (by decide) rfl

/-- C9 witness: the two conditional clauses applied at 5 and 2048. -/
theorem c9_format_bytes_rendering_witness :
    format_bytes 5 = Nat.repr 5 ++ " B" ∧
    ∃ d u, format_bytes 2048 =
        Nat.repr (d / 10) ++ "." ++ Nat.repr (d % 10) ++ " " ++ fbUnits.getD u "" ∧
      d = roundHalfEven (10 * f64ofU64 2048) (2 ^ (10 * u)) ∧
      u = fbLoop (f64ofU64 2048) ∧ 1 ≤ u ∧ u ≤ 4 ∧
      2 ^ (10 * u) ≤ f64ofU64 2048 ∧
      (u < 4 → f64ofU64 2048 < 2 ^ (10 * (u + 1))) :=
  ⟨c9_format_bytes_rendering.2.2.2.2.2.1 5 (by decide),
   c9_format_bytes_rendering.2.2.2.2.2.2 2048 (by decide)⟩

end ISOToolkit
